import Mathlib

/-!
Verification development for the `sui-indexer` resource-acquisition and
service-composition layer (`crates/sui-indexer/src/lib.rs`).

The source file delegates to external crates (`backoff`, `diesel`/`r2d2`,
`sui-sdk`, `sui-json-rpc`, `prometheus`).  The external crates are embedded by
their documented contracts; sibling crates of the repository whose sources are
not available here (`errors`, `apis::checkpoint_api`, `sui-json-rpc`,
`sui-sdk`) are modelled from the specification, as noted on each definition.

Durations are nonnegative and are modelled as exact fractions of milliseconds
(`Frac`, a numerator/denominator pair of naturals), with a semantics map
`Frac.toRat` into `ℚ` used by the abstract lemmas.  Fallible external calls
are modelled as `Except`-valued environments supplied as parameters, so that
every acquisition attempt and every builder step is an explicit, inspectable
event.
-/

namespace SuiIndexer

/-- An exact nonnegative fraction (a duration in milliseconds, or the backoff
multiplier).  Kept unreduced; comparisons cross-multiply. -/
structure Frac where
  num : ℕ
  den : ℕ
  dpos : 0 < den

/-- The fraction `n / 1`. -/
def Frac.ofNat (n : ℕ) : Frac := ⟨n, 1, Nat.one_pos⟩

/-- Fraction addition. -/
def Frac.add (a b : Frac) : Frac :=
  ⟨a.num * b.den + b.num * a.den, a.den * b.den, Nat.mul_pos a.dpos b.dpos⟩

/-- Fraction multiplication. -/
def Frac.mul (a b : Frac) : Frac :=
  ⟨a.num * b.num, a.den * b.den, Nat.mul_pos a.dpos b.dpos⟩

/-- Boolean `≤` on fractions. -/
def Frac.ble (a b : Frac) : Bool := a.num * b.den ≤ b.num * a.den

/-- Boolean `<` on fractions. -/
def Frac.blt (a b : Frac) : Bool := a.num * b.den < b.num * a.den

/-- The rational value of a fraction. -/
def Frac.toRat (a : Frac) : ℚ := (a.num : ℚ) / (a.den : ℚ)

/-- Milliseconds, as exact nonnegative fractions. -/
abbrev Millis := Frac

/-- Modelled from the spec: the `errors::IndexerError` taxonomy (spec section
7; the `errors` module of the crate is not among the available sources).
Each variant carries the message string that `lib.rs` builds with `format!`,
with the debug rendering of the underlying error abstracted to a string. -/
inductive IndexerError where
  | RpcClientInitError (msg : String)
  | PgConnectionPoolInitError (msg : String)
  | PgPoolConnectionError (msg : String)
  | JsonRpcServerError (msg : String)
  deriving DecidableEq

/-- A leased connection handle (`r2d2::PooledConnection`); its identity is
abstract. -/
structure PgPoolConnection where
  id : ℕ
  deriving DecidableEq

/-- The `r2d2::Pool` as seen by `get_pg_pool_connection`: a maximum size and,
for each acquisition attempt (numbered from 0), the outcome `pool.get()`
produces at that attempt — a connection, or an `r2d2::Error` description. -/
structure PgConnectionPool where
  max_size : ℕ
  get : ℕ → Except String PgPoolConnection

/-- The `backoff` crate's `ExponentialBackoff` state.  Fields and defaults
follow the crate (initial interval 500 ms, multiplier 1.5, maximum interval
60 s, maximum elapsed time 900 s); `elapsed` is the time since the policy was
created, i.e. the sum of the intervals already slept (operations are modelled
as instantaneous).  The crate additionally randomizes each returned interval
within `randomization_factor` of the current interval; the model returns the
current interval itself. -/
structure ExponentialBackoff where
  current_interval : Millis
  initial_interval : Millis
  multiplier : Frac
  max_interval : Millis
  max_elapsed_time : Option Millis
  elapsed : Millis

/-- `ExponentialBackoff::default()` in the `backoff` crate:
`INITIAL_INTERVAL_MILLIS = 500`, `MULTIPLIER = 1.5`,
`MAX_INTERVAL_MILLIS = 60_000`, `MAX_ELAPSED_TIME_MILLIS = 900_000`. -/
def ExponentialBackoff.default : ExponentialBackoff :=
  { current_interval := Frac.ofNat 500
    initial_interval := Frac.ofNat 500
    multiplier := ⟨3, 2, by norm_num⟩
    max_interval := Frac.ofNat 60000
    max_elapsed_time := some (Frac.ofNat 900000)
    elapsed := Frac.ofNat 0 }

/-- One failed attempt: advance the interval (the crate's
`increment_current_interval` saturates the interval at `max_interval` once
`max_interval / multiplier ≤ current_interval`, otherwise multiplies it; for
a positive multiplier this is exactly capping the multiplied interval at
`max_interval`) and account the slept time. -/
def ExponentialBackoff.step (b : ExponentialBackoff) : ExponentialBackoff :=
  { b with
    current_interval :=
      if b.max_interval.ble (b.current_interval.mul b.multiplier) then b.max_interval
      else b.current_interval.mul b.multiplier
    elapsed := b.elapsed.add b.current_interval }

/-- The crate's `next_backoff`: `None` once the elapsed time exceeds
`max_elapsed_time` (the give-up signal), otherwise the interval to sleep
together with the advanced state. -/
def ExponentialBackoff.nextBackoff (b : ExponentialBackoff) :
    Option (Millis × ExponentialBackoff) :=
  match b.max_elapsed_time with
  | some t => if t.blt b.elapsed then none else some (b.current_interval, b.step)
  | none => some (b.current_interval, b.step)

/-- Iterate `nextBackoff` ignoring the operation: `none` once the policy has
given up within `n` calls. -/
def ExponentialBackoff.iter (b : ExponentialBackoff) : ℕ → Option ExponentialBackoff
  | 0 => some b
  | n + 1 =>
    match b.nextBackoff with
    | none => none
    | some p => p.2.iter n

/-- The `backoff::Error` wrapper: errors the operation marks permanent stop
the retry loop at once; transient ones are retried. -/
inductive BackoffError (E : Type) where
  | permanent (e : E)
  | transient (e : E)
  deriving DecidableEq

/-- Outcome of a retry loop.  `diverge` is the fuel-exhaustion marker standing
for a loop that has not returned within the given fuel (an unbounded policy
over an always-failing operation never returns). -/
inductive RetryOutcome (E A : Type) where
  | ok (a : A)
  | err (e : E)
  | diverge
  deriving DecidableEq

/-- The `backoff::retry` loop, fuelled.  `op k` is the outcome of the `k`-th
invocation of the operation.  A success returns it; a permanent error returns
it; a transient error consults the policy: give up with the last error, or
sleep and retry. -/
def retryAux {E A : Type} (op : ℕ → Except (BackoffError E) A) :
    ℕ → ExponentialBackoff → ℕ → RetryOutcome E A
  | 0, _, _ => .diverge
  | fuel + 1, b, k =>
    match op k with
    | .ok a => .ok a
    | .error (.permanent e) => .err e
    | .error (.transient e) =>
      match b.nextBackoff with
      | none => .err e
      | some p => retryAux op fuel p.2 (k + 1)

/-- The closure `|| { let pool_conn = pool.get()?; Ok(pool_conn) }` from
`get_pg_pool_connection`: the `?` converts every `r2d2::Error` into a
`backoff::Error` through the blanket `From` impl, which classifies it as
transient. -/
def acquireOp (pool : PgConnectionPool) (k : ℕ) :
    Except (BackoffError String) PgPoolConnection :=
  match pool.get k with
  | .ok c => .ok c
  | .error e => .error (.transient e)

/-- Fuel for `get_pg_pool_connection`'s retry loop; ample, since the default
policy gives up after `defaultMaxAttempts = 26` attempts. -/
def retryFuel : ℕ := 100

/-- Message prefix of `PgPoolConnectionError` in `get_pg_pool_connection`. -/
def poolConnMsg : String :=
  "Failed to get pool connection from PG connection pool with error: "

/-- `get_pg_pool_connection`: retry acquisition under
`ExponentialBackoff::default()`, mapping a final failure to
`IndexerError::PgPoolConnectionError` wrapping the formatted last error. -/
def get_pg_pool_connection (pool : PgConnectionPool) :
    RetryOutcome IndexerError PgPoolConnection :=
  match retryAux (acquireOp pool) retryFuel ExponentialBackoff.default 0 with
  | .ok c => .ok c
  | .err e => .err (.PgPoolConnectionError (poolConnMsg ++ e))
  | .diverge => .diverge

/-- Number of acquisition attempts the default policy allows before giving
up (with instantaneous operations): the smallest `n` with
`iter ExponentialBackoff.default n = none`. -/
def defaultMaxAttempts : ℕ := 26

/-- The backoff state of the default policy after `k` failed attempts. -/
def defaultState (k : ℕ) : ExponentialBackoff :=
  ExponentialBackoff.step^[k] ExponentialBackoff.default

/-- The wait the default policy imposes after the `k`-th failed attempt
(before attempt `k + 1`). -/
def waitSeq (k : ℕ) : Millis := (defaultState k).current_interval

/-- Modelled from the spec: the upstream fullnode client
(`sui_sdk::SuiClient`); identity abstract (spec 4.1; the `sui-sdk` crate is
not among the available sources). -/
structure SuiClient where
  id : ℕ
  deriving DecidableEq

/-- Modelled from the spec: `SuiClientBuilder::default().build(http_url)` is
a single asynchronous construction attempt, returning the client or the
underlying transport error description (spec 4.1). -/
structure SuiClientBuilderEnv where
  build : String → Except String SuiClient

/-- Message prefix of `RpcClientInitError` in `new_rpc_client`. -/
def rpcClientMsg : String := "Failed to initialize fullnode RPC client with error: "

/-- `new_rpc_client`: one `SuiClientBuilder` build attempt; a failure maps to
`RpcClientInitError` carrying the formatted cause.  The second component
counts the construction attempts performed. -/
def new_rpc_client (env : SuiClientBuilderEnv) (http_url : String) :
    Except IndexerError SuiClient × ℕ :=
  (match env.build http_url with
   | .ok c => .ok c
   | .error e => .error (.RpcClientInitError (rpcClientMsg ++ e)), 1)

/-- `diesel::r2d2::ConnectionManager::<PgConnection>::new(db_url)`
(infallible construction). -/
structure ConnectionManager where
  db_url : String

/-- The `r2d2` world: for each connection string, either the pool's
per-attempt acquisition behaviour (pool construction succeeded) or the
construction error description. -/
structure R2d2Env where
  poolBuild : String → Except String (ℕ → Except String PgPoolConnection)

/-- `r2d2::Builder`: only the maximum pool size matters here; `none` when
left unconfigured. -/
structure PoolBuilder where
  max_size : Option ℕ

/-- `Pool::builder()`: every knob at its default. -/
def Pool.builder : PoolBuilder := { max_size := none }

/-- `builder.build(manager)`: a single synchronous construction attempt; on
success the pool's maximum size is the configured one, defaulting to 10
(r2d2's documented default, also quoted by the comment in `lib.rs`). -/
def PoolBuilder.build (pb : PoolBuilder) (env : R2d2Env) (m : ConnectionManager) :
    Except String PgConnectionPool :=
  match env.poolBuild m.db_url with
  | .ok g => .ok { max_size := pb.max_size.getD 10, get := g }
  | .error e => .error e

/-- Message prefix of `PgConnectionPoolInitError` in
`new_pg_connection_pool`. -/
def poolInitMsg : String := "Failed to initialize connection pool with error: "

/-- `new_pg_connection_pool`: construct the manager, build the pool once, map
a failure to `PgConnectionPoolInitError`.  (`Arc::new` is shared ownership
only and is modelled as the identity.)  The second component counts the
`build` attempts performed. -/
def new_pg_connection_pool (env : R2d2Env) (db_url : String) :
    Except IndexerError PgConnectionPool × ℕ :=
  (match Pool.builder.build env { db_url := db_url } with
   | .ok p => .ok p
   | .error e => .error (.PgConnectionPoolInitError (poolInitMsg ++ e)), 1)

/-- `diesel`'s `PgConnection` (a live one-off database connection); identity
abstract. -/
structure PgConnection where
  id : ℕ
  deriving DecidableEq

/-- The `diesel` world: the outcome of `PgConnection::establish(db_url)`. -/
structure DieselEnv where
  establish : String → Except String PgConnection

/-- Result of a Rust call that either returns a value or panics. -/
inductive PanicOr (A : Type) where
  | panicked (msg : String)
  | ret (a : A)
  deriving DecidableEq

/-- `establish_connection`: `PgConnection::establish(&db_url)` followed by
`unwrap_or_else(|_| panic!(...))` — no error value is ever returned; a
failure panics with the formatted message. -/
def establish_connection (env : DieselEnv) (db_url : String) :
    PanicOr PgConnection :=
  match env.establish db_url with
  | .ok c => .ret c
  | .error _ => .panicked ("Error connecting to " ++ db_url)

/-- The `prometheus::Registry` handle; identity abstract. -/
structure Registry where
  id : ℕ

/-- A V4 socket address: four octets and a port. -/
structure SocketAddr where
  ip : ℕ × ℕ × ℕ × ℕ
  port : ℕ
  deriving DecidableEq

/-- `SocketAddr::new(IpAddr::V4(Ipv4Addr::new(127, 0, 0, 1)), 3030)` — the
placeholder bind address hard-coded in `build_json_rpc_server`. -/
def default_socket_addr : SocketAddr := { ip := (127, 0, 0, 1), port := 3030 }

/-- `pub const FAKE_PKG_VERSION: &str = "0.0.0"` — the placeholder version
tag. -/
def FAKE_PKG_VERSION : String := "0.0.0"

/-- Modelled from the spec: the checkpoint capability module
(`apis::checkpoint_api::CheckpointApiImpl`) holds a shared handle to the
connection pool (spec sections 2 and 3; the `apis` module is not among the
available sources). -/
structure CheckpointApiImpl where
  pg_connection_pool : PgConnectionPool

/-- `CheckpointApiImpl::new(pg_connection_pool)`. -/
def CheckpointApiImpl.new (pool : PgConnectionPool) : CheckpointApiImpl :=
  { pg_connection_pool := pool }

/-- A registrable RPC module; the indexer registers exactly the checkpoint
API. -/
inductive RpcModule where
  | checkpointApi (impl : CheckpointApiImpl)

/-- Modelled from the spec: `sui_json_rpc::JsonRpcServerBuilder` (spec 4.3;
the `sui-json-rpc` crate is not among the available sources): construction
records the version tag and the metrics registry, `register_module` appends
a module, `start` freezes the module set into a running `ServerHandle`. -/
structure JsonRpcServerBuilder where
  version : String
  registry : Registry
  modules : List RpcModule

/-- Modelled from the spec: the running server — its listener address plus
the frozen module set. -/
structure ServerHandle where
  version : String
  modules : List RpcModule
  addr : SocketAddr

/-- Failure injection for the three fallible builder steps (builder
construction, module registration — e.g. a method-name collision — and
bind/start), each carrying its error description. -/
structure JsonRpcEnv where
  newOutcome : Except String Unit
  registerOutcome : Except String Unit
  startOutcome : Except String Unit

/-- Modelled from the spec: `JsonRpcServerBuilder::new(version, registry)`. -/
def JsonRpcServerBuilder.new (env : JsonRpcEnv) (version : String)
    (registry : Registry) : Except String JsonRpcServerBuilder :=
  match env.newOutcome with
  | .ok _ => .ok { version := version, registry := registry, modules := [] }
  | .error e => .error e

/-- Modelled from the spec: `builder.register_module(module)`. -/
def JsonRpcServerBuilder.register_module (b : JsonRpcServerBuilder)
    (env : JsonRpcEnv) (m : RpcModule) : Except String JsonRpcServerBuilder :=
  match env.registerOutcome with
  | .ok _ => .ok { b with modules := b.modules ++ [m] }
  | .error e => .error e

/-- Modelled from the spec: `builder.start(addr)`. -/
def JsonRpcServerBuilder.start (b : JsonRpcServerBuilder) (env : JsonRpcEnv)
    (addr : SocketAddr) : Except String ServerHandle :=
  match env.startOutcome with
  | .ok _ => .ok { version := b.version, modules := b.modules, addr := addr }
  | .error e => .error e

/-- The externally observable steps `build_json_rpc_server` performs, in
order. -/
inductive BuildStep where
  | newBuilder (version : String)
  | registerModule (m : RpcModule)
  | startServer (addr : SocketAddr)

/-- Whether a step is a module registration. -/
def BuildStep.isRegister : BuildStep → Bool
  | .registerModule _ => true
  | _ => false

/-- Message prefix of `JsonRpcServerError` for builder construction. -/
def jsonRpcInitMsg : String := "Failed to init JSON-RPC builder with error: "

/-- Message prefix of `JsonRpcServerError` for module registration. -/
def jsonRpcRegisterMsg : String := "Failed to register JSON-RPC module with error: "

/-- Message prefix of `JsonRpcServerError` for bind/start. -/
def jsonRpcStartMsg : String := "Failed to start JSON-RPC server with error: "

/-- `build_json_rpc_server`: construct the builder with `FAKE_PKG_VERSION`
and the registry, register the checkpoint module holding the pool handle,
then start on the hard-coded placeholder address; each failure maps to
`JsonRpcServerError` and aborts the remaining steps.  The second component
is the list of steps actually performed, in order. -/
def build_json_rpc_server (env : JsonRpcEnv) (prometheus_registry : Registry)
    (pg_connection_pool : PgConnectionPool) :
    Except IndexerError ServerHandle × List BuildStep :=
  match JsonRpcServerBuilder.new env FAKE_PKG_VERSION prometheus_registry with
  | .error e =>
    (.error (.JsonRpcServerError (jsonRpcInitMsg ++ e)),
     [.newBuilder FAKE_PKG_VERSION])
  | .ok builder =>
    match builder.register_module env
        (.checkpointApi (CheckpointApiImpl.new pg_connection_pool)) with
    | .error e =>
      (.error (.JsonRpcServerError (jsonRpcRegisterMsg ++ e)),
       [.newBuilder FAKE_PKG_VERSION,
        .registerModule (.checkpointApi (CheckpointApiImpl.new pg_connection_pool))])
    | .ok builder2 =>
      match builder2.start env default_socket_addr with
      | .error e =>
        (.error (.JsonRpcServerError (jsonRpcStartMsg ++ e)),
         [.newBuilder FAKE_PKG_VERSION,
          .registerModule (.checkpointApi (CheckpointApiImpl.new pg_connection_pool)),
          .startServer default_socket_addr])
      | .ok h =>
        (.ok h,
         [.newBuilder FAKE_PKG_VERSION,
          .registerModule (.checkpointApi (CheckpointApiImpl.new pg_connection_pool)),
          .startServer default_socket_addr])

/-- A pool whose every acquisition attempt succeeds. -/
def okPool : PgConnectionPool := { max_size := 10, get := fun k => .ok ⟨k⟩ }

/-- A pool whose every acquisition attempt fails with the same error. -/
def alwaysFailPool : PgConnectionPool :=
  { max_size := 10, get := fun _ => .error "connection refused" }

/-- A metrics registry for concrete runs. -/
def exampleRegistry : Registry := { id := 0 }

/-- A builder environment in which every step succeeds. -/
def allOkEnv : JsonRpcEnv := ⟨.ok (), .ok (), .ok ()⟩

/-- A builder environment in which builder construction itself fails. -/
def newFailsEnv : JsonRpcEnv := ⟨.error "registry already contains metrics", .ok (), .ok ()⟩

/-- An `r2d2` world in which pool construction succeeds and every
acquisition succeeds. -/
def okR2d2Env : R2d2Env := ⟨fun _ => .ok (fun k => .ok ⟨k⟩)⟩

/-- An upstream-client world in which construction succeeds. -/
def okSuiEnv : SuiClientBuilderEnv := ⟨fun _ => .ok ⟨3⟩⟩

/-- A `diesel` world in which establishing the connection succeeds. -/
def okDieselEnv : DieselEnv := ⟨fun _ => .ok ⟨1⟩⟩

theorem Frac.den_cast_pos (a : Frac) : (0 : ℚ) < (a.den : ℚ) := by
  exact_mod_cast a.dpos

theorem Frac.toRat_nonneg (a : Frac) : 0 ≤ a.toRat :=
  div_nonneg (by positivity) (le_of_lt a.den_cast_pos)

theorem Frac.ble_iff (a b : Frac) : a.ble b = true ↔ a.toRat ≤ b.toRat := by
  rw [Frac.ble, Frac.toRat, Frac.toRat,
    div_le_div_iff a.den_cast_pos b.den_cast_pos]
  simp only [decide_eq_true_eq]
  exact_mod_cast Iff.rfl

theorem Frac.blt_iff (a b : Frac) : a.blt b = true ↔ a.toRat < b.toRat := by
  rw [Frac.blt, Frac.toRat, Frac.toRat,
    div_lt_div_iff a.den_cast_pos b.den_cast_pos]
  simp only [decide_eq_true_eq]
  exact_mod_cast Iff.rfl

theorem Frac.toRat_add (a b : Frac) : (a.add b).toRat = a.toRat + b.toRat := by
  rw [Frac.add, Frac.toRat, Frac.toRat, Frac.toRat]
  rw [div_add_div _ _ (ne_of_gt a.den_cast_pos) (ne_of_gt b.den_cast_pos)]
  push_cast
  ring_nf

theorem Frac.toRat_mul (a b : Frac) : (a.mul b).toRat = a.toRat * b.toRat := by
  rw [Frac.mul, Frac.toRat, Frac.toRat, Frac.toRat, div_mul_div_comm]
  push_cast
  ring_nf

theorem Frac.toRat_ofNat (n : ℕ) : (Frac.ofNat n).toRat = (n : ℚ) := by
  simp [Frac.ofNat, Frac.toRat]

theorem default_iter_none :
    (ExponentialBackoff.iter ExponentialBackoff.default defaultMaxAttempts).isNone = true := by
  decide

theorem default_iter_isSome :
    ∀ i < defaultMaxAttempts,
      (ExponentialBackoff.iter ExponentialBackoff.default i).isSome = true := by
  decide

theorem ExponentialBackoff.iter_add (m n : ℕ) (b : ExponentialBackoff) :
    b.iter (m + n) = (b.iter m).bind (fun c => c.iter n) := by
  induction m generalizing b with
  | zero => simp [ExponentialBackoff.iter]
  | succ m ih =>
    have h : m + 1 + n = (m + n) + 1 := by omega
    rw [h]
    cases hnb : b.nextBackoff with
    | none => simp [ExponentialBackoff.iter, hnb]
    | some p => simp [ExponentialBackoff.iter, hnb, ih]

theorem retryAux_ne_diverge {E A : Type} (op : ℕ → Except (BackoffError E) A) :
    ∀ (fuel m : ℕ) (b : ExponentialBackoff) (k : ℕ),
      b.iter m = none → m ≤ fuel → retryAux op fuel b k ≠ .diverge := by
  intro fuel
  induction fuel with
  | zero =>
    intro m b k hm hle
    interval_cases m
    simp [ExponentialBackoff.iter] at hm
  | succ fuel ih =>
    intro m b k hm hle
    rw [retryAux]
    cases hop : op k with
    | ok a => simp
    | error x =>
      cases x with
      | permanent e => simp
      | transient e =>
        cases hnb : b.nextBackoff with
        | none => simp
        | some p =>
          simp only
          cases m with
          | zero => simp [ExponentialBackoff.iter] at hm
          | succ m =>
            rw [ExponentialBackoff.iter, hnb] at hm
            exact ih m p.2 (k + 1) hm (by omega)

theorem retryAux_ok {E A : Type} (op : ℕ → Except (BackoffError E) A) (a : A) :
    ∀ (j fuel : ℕ) (b : ExponentialBackoff) (k : ℕ),
      j < fuel →
      (∀ i < j, ∃ e, op (k + i) = .error (.transient e)) →
      op (k + j) = .ok a →
      (b.iter j).isSome = true →
      retryAux op fuel b k = .ok a := by
  intro j
  induction j with
  | zero =>
    intro fuel b k hfuel _ hok _
    cases fuel with
    | zero => omega
    | succ fuel =>
      rw [retryAux]
      simp only [Nat.add_zero] at hok
      rw [hok]
  | succ j ih =>
    intro fuel b k hfuel hfail hok hsome
    cases fuel with
    | zero => omega
    | succ fuel =>
      obtain ⟨e0, he0⟩ := hfail 0 (by omega)
      rw [retryAux]
      simp only [Nat.add_zero] at he0
      rw [he0]
      cases hnb : b.nextBackoff with
      | none => rw [ExponentialBackoff.iter, hnb] at hsome; simp at hsome
      | some p =>
        simp only
        rw [ExponentialBackoff.iter, hnb] at hsome
        refine ih fuel p.2 (k + 1) (by omega) ?_ ?_ hsome
        · intro i hi
          obtain ⟨e2, he2⟩ := hfail (i + 1) (by omega)
          exact ⟨e2, by rw [show k + 1 + i = k + (i + 1) by omega]; exact he2⟩
        · rw [show k + 1 + j = k + (j + 1) by omega]; exact hok

theorem retryAux_allfail {E A : Type} (op : ℕ → Except (BackoffError E) A)
    (es : ℕ → E) :
    ∀ (m fuel : ℕ) (b : ExponentialBackoff) (k : ℕ),
      m ≤ fuel →
      b.iter m = none →
      (∀ i < m, (b.iter i).isSome = true) →
      (∀ i < m, op (k + i) = .error (.transient (es (k + i)))) →
      retryAux op fuel b k = .err (es (k + (m - 1))) := by
  intro m
  induction m with
  | zero =>
    intro fuel b k _ hm _ _
    simp [ExponentialBackoff.iter] at hm
  | succ m ih =>
    intro fuel b k hle hnone hsome hfail
    cases fuel with
    | zero => omega
    | succ fuel =>
      have he0 := hfail 0 (by omega)
      rw [retryAux]
      simp only [Nat.add_zero] at he0
      rw [he0]
      cases hnb : b.nextBackoff with
      | none =>
        simp only
        cases m with
        | zero => simp
        | succ m =>
          have h1 := hsome 1 (by omega)
          rw [ExponentialBackoff.iter, hnb] at h1
          simp at h1
      | some p =>
        simp only
        cases m with
        | zero =>
          rw [ExponentialBackoff.iter, hnb] at hnone
          simp [ExponentialBackoff.iter] at hnone
        | succ m =>
          rw [ExponentialBackoff.iter, hnb] at hnone
          have hres := ih fuel p.2 (k + 1) (by omega) hnone ?_ ?_
          · rw [hres]
            congr 1
            congr 1
            omega
          · intro i hi
            have := hsome (i + 1) (by omega)
            rw [ExponentialBackoff.iter, hnb] at this
            exact this
          · intro i hi
            have := hfail (i + 1) (by omega)
            rw [show k + (i + 1) = k + 1 + i by omega] at this
            exact this

theorem retryAux_ok_inv {E A : Type} (op : ℕ → Except (BackoffError E) A) (a : A) :
    ∀ (fuel : ℕ) (b : ExponentialBackoff) (k : ℕ),
      retryAux op fuel b k = .ok a →
      ∃ j, op (k + j) = .ok a ∧
        (∀ i < j, ∃ e2, op (k + i) = .error (.transient e2)) ∧
        (b.iter j).isSome = true := by
  intro fuel
  induction fuel with
  | zero => intro b k h; rw [retryAux] at h; exact absurd h (by simp)
  | succ fuel ih =>
    intro b k h
    rw [retryAux] at h
    cases hop : op k with
    | ok a2 =>
      rw [hop] at h
      simp only [RetryOutcome.ok.injEq] at h
      subst h
      exact ⟨0, by simpa using hop, by omega, by simp [ExponentialBackoff.iter]⟩
    | error x =>
      cases x with
      | permanent e => rw [hop] at h; simp at h
      | transient e =>
        rw [hop] at h
        cases hnb : b.nextBackoff with
        | none => rw [hnb] at h; simp at h
        | some p =>
          rw [hnb] at h
          simp only at h
          obtain ⟨j, hj1, hj2, hj3⟩ := ih p.2 (k + 1) h
          refine ⟨j + 1, ?_, ?_, ?_⟩
          · rw [show k + (j + 1) = k + 1 + j by omega]; exact hj1
          · intro i hi
            cases i with
            | zero => exact ⟨e, by simpa using hop⟩
            | succ i =>
              obtain ⟨e2, he2⟩ := hj2 i (by omega)
              exact ⟨e2, by rw [show k + (i + 1) = k + 1 + i by omega]; exact he2⟩
          · rw [ExponentialBackoff.iter, hnb]; exact hj3

theorem retryAux_err_inv {E A : Type} (op : ℕ → Except (BackoffError E) A)
    (hnp : ∀ i e, op i ≠ .error (.permanent e)) :
    ∀ (fuel : ℕ) (b : ExponentialBackoff) (k : ℕ) (e : E),
      retryAux op fuel b k = .err e →
      ∃ j, op (k + j) = .error (.transient e) ∧
        (∀ i ≤ j, ∃ e2, op (k + i) = .error (.transient e2)) ∧
        b.iter (j + 1) = none ∧
        (∀ i ≤ j, (b.iter i).isSome = true) := by
  intro fuel
  induction fuel with
  | zero => intro b k e h; rw [retryAux] at h; exact absurd h (by simp)
  | succ fuel ih =>
    intro b k e h
    rw [retryAux] at h
    cases hop : op k with
    | ok a => rw [hop] at h; simp at h
    | error x =>
      cases x with
      | permanent e2 => exact absurd hop (hnp k e2)
      | transient e0 =>
        rw [hop] at h
        cases hnb : b.nextBackoff with
        | none =>
          rw [hnb] at h
          simp only [RetryOutcome.err.injEq] at h
          subst h
          refine ⟨0, by simpa using hop, ?_, ?_, ?_⟩
          · intro i hi
            interval_cases i
            exact ⟨e0, by simpa using hop⟩
          · rw [ExponentialBackoff.iter, hnb]
          · intro i hi
            interval_cases i
            simp [ExponentialBackoff.iter]
        | some p =>
          rw [hnb] at h
          simp only at h
          obtain ⟨j, hj1, hj2, hj3, hj4⟩ := ih p.2 (k + 1) e h
          refine ⟨j + 1, ?_, ?_, ?_, ?_⟩
          · rw [show k + (j + 1) = k + 1 + j by omega]; exact hj1
          · intro i hi
            cases i with
            | zero => exact ⟨e0, by simpa using hop⟩
            | succ i =>
              obtain ⟨e2, he2⟩ := hj2 i (by omega)
              exact ⟨e2, by rw [show k + (i + 1) = k + 1 + i by omega]; exact he2⟩
          · rw [ExponentialBackoff.iter, hnb]; exact hj3
          · intro i hi
            cases i with
            | zero => simp [ExponentialBackoff.iter]
            | succ i =>
              rw [ExponentialBackoff.iter, hnb]
              exact hj4 i (by omega)

theorem acquireOp_ok_iff (pool : PgConnectionPool) (k : ℕ) (c : PgPoolConnection) :
    acquireOp pool k = .ok c ↔ pool.get k = .ok c := by
  cases h : pool.get k <;> simp [acquireOp, h]

theorem acquireOp_transient_iff (pool : PgConnectionPool) (k : ℕ) (e : String) :
    acquireOp pool k = .error (.transient e) ↔ pool.get k = .error e := by
  cases h : pool.get k <;> simp [acquireOp, h]

theorem acquireOp_ne_permanent (pool : PgConnectionPool) (k : ℕ) (e : String) :
    acquireOp pool k ≠ .error (.permanent e) := by
  cases h : pool.get k <;> simp [acquireOp, h]

theorem ExponentialBackoff.step_multiplier (b : ExponentialBackoff) :
    b.step.multiplier = b.multiplier := rfl

theorem ExponentialBackoff.step_max_interval (b : ExponentialBackoff) :
    b.step.max_interval = b.max_interval := rfl

theorem ExponentialBackoff.step_max_elapsed_time (b : ExponentialBackoff) :
    b.step.max_elapsed_time = b.max_elapsed_time := rfl

theorem ExponentialBackoff.step_elapsed (b : ExponentialBackoff) :
    b.step.elapsed = b.elapsed.add b.current_interval := rfl

theorem ExponentialBackoff.step_current_ge (b : ExponentialBackoff) (d : ℚ)
    (hm : 1 ≤ b.multiplier.toRat)
    (hc : d ≤ b.current_interval.toRat)
    (hM : d ≤ b.max_interval.toRat) :
    d ≤ b.step.current_interval.toRat := by
  rw [ExponentialBackoff.step]
  dsimp only
  split
  · exact hM
  · rw [Frac.toRat_mul]
    calc d ≤ b.current_interval.toRat := hc
    _ = b.current_interval.toRat * 1 := (mul_one _).symm
    _ ≤ b.current_interval.toRat * b.multiplier.toRat :=
        mul_le_mul_of_nonneg_left hm (Frac.toRat_nonneg _)

theorem ExponentialBackoff.step_current_le (b : ExponentialBackoff) (X : ℚ)
    (hc : b.current_interval.toRat ≤ X) (hM : b.max_interval.toRat ≤ X) :
    b.step.current_interval.toRat ≤ X := by
  rw [ExponentialBackoff.step]
  dsimp only
  split
  · exact hM
  · rename_i h
    have h2 : ¬ (b.max_interval.toRat ≤ (b.current_interval.mul b.multiplier).toRat) :=
      fun hx => h ((Frac.ble_iff _ _).mpr hx)
    linarith [lt_of_not_le h2]

theorem ExponentialBackoff.nextBackoff_some {b : ExponentialBackoff}
    {p : Millis × ExponentialBackoff} (h : b.nextBackoff = some p) :
    p = (b.current_interval, b.step) ∧
    (∀ t, b.max_elapsed_time = some t → b.elapsed.toRat ≤ t.toRat) := by
  unfold ExponentialBackoff.nextBackoff at h
  split at h
  · rename_i t hm
    split at h
    · exact absurd h (by simp)
    · rename_i hblt
      simp only [Option.some.injEq] at h
      refine ⟨h.symm, ?_⟩
      intro t2 ht2
      rw [hm] at ht2
      injection ht2 with h3
      subst h3
      exact le_of_not_lt (fun hx => hblt ((Frac.blt_iff _ _).mpr hx))
  · rename_i hm
    simp only [Option.some.injEq] at h
    exact ⟨h.symm, fun t ht => by rw [hm] at ht; cases ht⟩

theorem ExponentialBackoff.nextBackoff_none_of (b : ExponentialBackoff) (t : Frac)
    (hm : b.max_elapsed_time = some t) (hlt : t.toRat < b.elapsed.toRat) :
    b.nextBackoff = none := by
  unfold ExponentialBackoff.nextBackoff
  rw [hm]
  simp only
  rw [if_pos ((Frac.blt_iff t b.elapsed).mpr hlt)]

theorem ExponentialBackoff.iter_none_of_budget (t : Frac) (d : ℚ) (hd : 0 < d) :
    ∀ (n : ℕ) (b : ExponentialBackoff),
      b.max_elapsed_time = some t →
      1 ≤ b.multiplier.toRat →
      d ≤ b.current_interval.toRat →
      d ≤ b.max_interval.toRat →
      t.toRat < b.elapsed.toRat + n * d →
      b.iter (n + 1) = none := by
  intro n
  induction n with
  | zero =>
    intro b hm _ _ _ ht
    rw [ExponentialBackoff.iter,
      ExponentialBackoff.nextBackoff_none_of b t hm (by simpa using ht)]
  | succ n ih =>
    intro b hm hmul hc hM ht
    rw [ExponentialBackoff.iter]
    cases hnb : b.nextBackoff with
    | none => simp
    | some p =>
      simp only
      obtain ⟨hp, _⟩ := ExponentialBackoff.nextBackoff_some hnb
      rw [hp]
      dsimp only
      apply ih b.step
      · rw [ExponentialBackoff.step_max_elapsed_time, hm]
      · rw [ExponentialBackoff.step_multiplier]; exact hmul
      · exact ExponentialBackoff.step_current_ge b d hmul hc hM
      · rw [ExponentialBackoff.step_max_interval]; exact hM
      · rw [ExponentialBackoff.step_elapsed, Frac.toRat_add]
        push_cast at ht ⊢
        linarith

theorem ExponentialBackoff.exists_iter_none (b : ExponentialBackoff) (t : Frac)
    (hm : b.max_elapsed_time = some t) (hmul : 1 ≤ b.multiplier.toRat)
    (hc : 0 < b.current_interval.toRat) (hM : 0 < b.max_interval.toRat) :
    ∃ n, b.iter n = none := by
  set d := min b.current_interval.toRat b.max_interval.toRat with hdef
  have hd : 0 < d := lt_min hc hM
  obtain ⟨n, hn⟩ := exists_nat_gt ((t.toRat - b.elapsed.toRat) / d)
  refine ⟨n + 1, ExponentialBackoff.iter_none_of_budget t d hd n b hm hmul
    (min_le_left _ _) (min_le_right _ _) ?_⟩
  rw [div_lt_iff hd] at hn
  linarith

theorem ExponentialBackoff.iter_elapsed_le (t : Frac) (X : ℚ) :
    ∀ (m : ℕ) (b b2 : ExponentialBackoff),
      b.max_elapsed_time = some t →
      b.current_interval.toRat ≤ X →
      b.max_interval.toRat ≤ X →
      b.iter m = some b2 →
      b2.elapsed.toRat ≤ max b.elapsed.toRat (t.toRat + X) ∧
      b2.current_interval.toRat ≤ X := by
  intro m
  induction m with
  | zero =>
    intro b b2 _ hc _ h
    rw [ExponentialBackoff.iter] at h
    injection h with h
    subst h
    exact ⟨le_max_left _ _, hc⟩
  | succ m ih =>
    intro b b2 hm hc hM h
    rw [ExponentialBackoff.iter] at h
    cases hnb : b.nextBackoff with
    | none => rw [hnb] at h; simp at h
    | some p =>
      rw [hnb] at h
      simp only at h
      obtain ⟨hp, hle⟩ := ExponentialBackoff.nextBackoff_some hnb
      have hel : b.elapsed.toRat ≤ t.toRat := hle t hm
      rw [hp] at h
      dsimp only at h
      have hrec := ih b.step b2
        (by rw [ExponentialBackoff.step_max_elapsed_time, hm])
        (ExponentialBackoff.step_current_le b X hc hM)
        (by rw [ExponentialBackoff.step_max_interval]; exact hM) h
      refine ⟨?_, hrec.2⟩
      have h2 : b.step.elapsed.toRat ≤ t.toRat + X := by
        rw [ExponentialBackoff.step_elapsed, Frac.toRat_add]
        linarith
      have h3 : max b.step.elapsed.toRat (t.toRat + X) = t.toRat + X :=
        max_eq_right h2
      calc b2.elapsed.toRat ≤ max b.step.elapsed.toRat (t.toRat + X) := hrec.1
      _ = t.toRat + X := h3
      _ ≤ max b.elapsed.toRat (t.toRat + X) := le_max_right _ _

theorem ExponentialBackoff.iter_some_eq (m : ℕ) :
    ∀ b b2 : ExponentialBackoff, b.iter m = some b2 →
      b2 = ExponentialBackoff.step^[m] b := by
  induction m with
  | zero =>
    intro b b2 h
    rw [ExponentialBackoff.iter] at h
    injection h with h
    subst h
    rfl
  | succ m ih =>
    intro b b2 h
    rw [ExponentialBackoff.iter] at h
    cases hnb : b.nextBackoff with
    | none => rw [hnb] at h; simp at h
    | some p =>
      rw [hnb] at h
      simp only at h
      obtain ⟨hp, _⟩ := ExponentialBackoff.nextBackoff_some hnb
      rw [hp] at h
      dsimp only at h
      rw [ih b.step b2 h, Function.iterate_succ_apply]

theorem defaultState_multiplier (k : ℕ) :
    (defaultState k).multiplier = ExponentialBackoff.default.multiplier := by
  induction k with
  | zero => rfl
  | succ k ih =>
    rw [defaultState, Function.iterate_succ_apply']
    rw [ExponentialBackoff.step_multiplier]
    exact ih

theorem defaultState_max_interval (k : ℕ) :
    (defaultState k).max_interval = ExponentialBackoff.default.max_interval := by
  induction k with
  | zero => rfl
  | succ k ih =>
    rw [defaultState, Function.iterate_succ_apply']
    rw [ExponentialBackoff.step_max_interval]
    exact ih

theorem waitSeq_zero : waitSeq 0 = ExponentialBackoff.default.initial_interval := rfl

theorem waitSeq_succ (k : ℕ) :
    (waitSeq (k + 1)).toRat =
      min ((waitSeq k).toRat * ExponentialBackoff.default.multiplier.toRat)
        ExponentialBackoff.default.max_interval.toRat := by
  have hstep : waitSeq (k + 1) = (defaultState k).step.current_interval := by
    rw [waitSeq, defaultState, Function.iterate_succ_apply']
    rfl
  rw [hstep, ExponentialBackoff.step]
  dsimp only
  split
  · rename_i h
    rw [Frac.ble_iff, Frac.toRat_mul, defaultState_multiplier,
      defaultState_max_interval] at h
    rw [defaultState_max_interval]
    exact (min_eq_right h).symm
  · rename_i h
    have h2 : ¬ ((defaultState k).max_interval.toRat ≤
        ((defaultState k).current_interval.mul (defaultState k).multiplier).toRat) :=
      fun hx => h ((Frac.ble_iff _ _).mpr hx)
    rw [Frac.toRat_mul, defaultState_multiplier, defaultState_max_interval] at h2
    rw [Frac.toRat_mul, defaultState_multiplier]
    exact (min_eq_left (le_of_lt (lt_of_not_le h2))).symm

theorem waitSeq_le (k : ℕ) :
    (waitSeq k).toRat ≤ ExponentialBackoff.default.max_interval.toRat := by
  induction k with
  | zero =>
    rw [waitSeq_zero]
    simp [ExponentialBackoff.default, Frac.toRat, Frac.ofNat]
    norm_num
  | succ k _ =>
    rw [waitSeq_succ]
    exact min_le_right _ _

theorem default_initial_toRat :
    ExponentialBackoff.default.initial_interval.toRat = 500 := by
  simp [ExponentialBackoff.default, Frac.toRat, Frac.ofNat]

theorem default_max_interval_toRat :
    ExponentialBackoff.default.max_interval.toRat = 60000 := by
  simp [ExponentialBackoff.default, Frac.toRat, Frac.ofNat]

theorem default_multiplier_toRat :
    ExponentialBackoff.default.multiplier.toRat = 3 / 2 := by
  simp [ExponentialBackoff.default, Frac.toRat]

theorem get_ok_of_first_success (pool : PgConnectionPool) (j : ℕ)
    (c : PgPoolConnection) (hj : j < defaultMaxAttempts)
    (hok : pool.get j = .ok c)
    (hfail : ∀ i < j, ∃ e, pool.get i = .error e) :
    get_pg_pool_connection pool = .ok c := by
  have h26 : defaultMaxAttempts = 26 := rfl
  have hr : retryAux (acquireOp pool) retryFuel ExponentialBackoff.default 0 = .ok c := by
    apply retryAux_ok (acquireOp pool) c j retryFuel ExponentialBackoff.default 0
    · rw [show retryFuel = 100 from rfl]
      omega
    · intro i hi
      obtain ⟨e, he⟩ := hfail i hi
      refine ⟨e, ?_⟩
      rw [Nat.zero_add]
      exact (acquireOp_transient_iff pool i e).mpr he
    · rw [Nat.zero_add]
      exact (acquireOp_ok_iff pool j c).mpr hok
    · exact default_iter_isSome j hj
  unfold get_pg_pool_connection
  rw [hr]

theorem get_allfail (pool : PgConnectionPool) (es : ℕ → String)
    (hall : ∀ i < defaultMaxAttempts, pool.get i = .error (es i)) :
    get_pg_pool_connection pool =
      .err (.PgPoolConnectionError (poolConnMsg ++ es (defaultMaxAttempts - 1))) := by
  have hf : ∀ i < defaultMaxAttempts,
      acquireOp pool (0 + i) = .error (.transient (es (0 + i))) := by
    intro i hi
    rw [Nat.zero_add]
    exact (acquireOp_transient_iff pool i (es i)).mpr (hall i hi)
  have hr := retryAux_allfail (acquireOp pool) es defaultMaxAttempts retryFuel
    ExponentialBackoff.default 0 (by decide)
    (Option.isNone_iff_eq_none.mp default_iter_none) default_iter_isSome hf
  unfold get_pg_pool_connection
  rw [hr]
  simp only [Nat.zero_add]

theorem get_err_characterization (pool : PgConnectionPool) (ie : IndexerError)
    (hie : get_pg_pool_connection pool = .err ie) :
    (∃ s, ie = .PgPoolConnectionError s) ∧
    ∀ i < defaultMaxAttempts, ∃ e, pool.get i = .error e := by
  have h26 : defaultMaxAttempts = 26 := rfl
  unfold get_pg_pool_connection at hie
  cases hr : retryAux (acquireOp pool) retryFuel ExponentialBackoff.default 0 with
  | ok c => rw [hr] at hie; simp at hie
  | diverge => rw [hr] at hie; simp at hie
  | err e =>
    rw [hr] at hie
    simp only [RetryOutcome.err.injEq] at hie
    subst hie
    refine ⟨⟨_, rfl⟩, ?_⟩
    obtain ⟨j, hj1, hj2, hj3, hj4⟩ := retryAux_err_inv (acquireOp pool)
      (fun i e2 => acquireOp_ne_permanent pool i e2) retryFuel
      ExponentialBackoff.default 0 e hr
    have hj25 : 25 ≤ j := by
      by_contra hlt
      push_neg at hlt
      have hs := default_iter_isSome (j + 1) (by omega)
      rw [hj3] at hs
      simp at hs
    intro i hi
    obtain ⟨e2, he2⟩ := hj2 i (by omega)
    rw [Nat.zero_add] at he2
    exact ⟨e2, (acquireOp_transient_iff pool i e2).mp he2⟩

/-- C1: for every pool, `get_pg_pool_connection` returns `Ok` with the
connection of the first successful attempt when some attempt succeeds within
the retry budget; it returns `Err (PgPoolConnectionError _)` wrapping the
last underlying error exactly when the budget is exhausted (every attempt in
the budget failed); and no other error variant is ever returned. -/
theorem c1_acquisition_ok_or_pool_connection_error (pool : PgConnectionPool) :
    (∀ j c, j < defaultMaxAttempts → pool.get j = .ok c →
      (∀ i < j, ∃ e, pool.get i = .error e) →
      get_pg_pool_connection pool = .ok c) ∧
    (∀ es : ℕ → String,
      (∀ i < defaultMaxAttempts, pool.get i = .error (es i)) →
      get_pg_pool_connection pool =
        .err (.PgPoolConnectionError (poolConnMsg ++ es (defaultMaxAttempts - 1)))) ∧
    (∀ ie, get_pg_pool_connection pool = .err ie →
      (∃ s, ie = .PgPoolConnectionError s) ∧
      ∀ i < defaultMaxAttempts, ∃ e, pool.get i = .error e) :=
  ⟨fun j c hj hok hfail => get_ok_of_first_success pool j c hj hok hfail,
   fun es hall => get_allfail pool es hall,
   fun ie hie => get_err_characterization pool ie hie⟩

/-- C1 witness: a pool that succeeds at the first attempt yields `Ok`. -/
theorem c1_witness : get_pg_pool_connection okPool = .ok ⟨0⟩ :=
  (c1_acquisition_ok_or_pool_connection_error okPool).1 0 ⟨0⟩ (by decide) rfl
    (fun i hi => absurd hi (Nat.not_lt_zero i))

/-- C2 counterexample: under the default policy acquisition does give up —
with every attempt failing, `get_pg_pool_connection` returns
`PgPoolConnectionError`, refuting "retries unboundedly, never gives up". -/
theorem c2_counterexample :
    get_pg_pool_connection alwaysFailPool =
      .err (.PgPoolConnectionError (poolConnMsg ++ "connection refused")) := by
  have hf : ∀ i < defaultMaxAttempts,
      acquireOp alwaysFailPool (0 + i) =
        .error (.transient ((fun _ => "connection refused") (0 + i))) :=
    fun i _ => rfl
  have hr := retryAux_allfail (acquireOp alwaysFailPool)
    (fun _ => "connection refused") defaultMaxAttempts retryFuel
    ExponentialBackoff.default 0 (by decide)
    (Option.isNone_iff_eq_none.mp default_iter_none) default_iter_isSome hf
  unfold get_pg_pool_connection
  rw [hr]

/-- C2 (amended): under the default retry policy, acquisition is bounded —
when every attempt fails it gives up after `defaultMaxAttempts = 26` attempts
(the crate's default 900 s elapsed budget) with `PgPoolConnectionError`
wrapping the last error; the wait starts at the 500 ms initial interval, is
multiplied by the 1.5 multiplier after every failed attempt, and is capped
at the policy's own 60 s interval ceiling. -/
theorem c2_default_policy_bounded_and_capped :
    (∀ (pool : PgConnectionPool) (es : ℕ → String),
      (∀ i < defaultMaxAttempts, pool.get i = .error (es i)) →
      get_pg_pool_connection pool =
        .err (.PgPoolConnectionError (poolConnMsg ++ es (defaultMaxAttempts - 1)))) ∧
    waitSeq 0 = ExponentialBackoff.default.initial_interval ∧
    ExponentialBackoff.default.initial_interval.toRat = 500 ∧
    (∀ k, (waitSeq (k + 1)).toRat =
      min ((waitSeq k).toRat * ExponentialBackoff.default.multiplier.toRat)
        ExponentialBackoff.default.max_interval.toRat) ∧
    ExponentialBackoff.default.multiplier.toRat = 3 / 2 ∧
    (∀ k, (waitSeq k).toRat ≤ ExponentialBackoff.default.max_interval.toRat) ∧
    ExponentialBackoff.default.max_interval.toRat = 60000 ∧
    (∀ k bk, ExponentialBackoff.iter ExponentialBackoff.default k = some bk →
      bk.current_interval = waitSeq k) :=
  ⟨fun pool es hall => get_allfail pool es hall,
   waitSeq_zero,
   default_initial_toRat,
   waitSeq_succ,
   default_multiplier_toRat,
   waitSeq_le,
   default_max_interval_toRat,
   fun k bk h => by rw [ExponentialBackoff.iter_some_eq k _ bk h]; rfl⟩

/-- C2 witness: the amended bound applied to an always-failing pool. -/
theorem c2_witness :
    get_pg_pool_connection alwaysFailPool =
      .err (.PgPoolConnectionError (poolConnMsg ++ "connection refused")) :=
  c2_default_policy_bounded_and_capped.1 alwaysFailPool
    (fun _ => "connection refused") (fun i _ => rfl)

/-- C9: every acquisition error is classified transient by the `?`
conversion (never permanent), so no error short-circuits the loop: an `Err`
result means every attempt in the budget failed. -/
theorem c9_every_acquisition_error_transient (pool : PgConnectionPool) (k : ℕ) :
    (∀ e, pool.get k = .error e → acquireOp pool k = .error (.transient e)) ∧
    (∀ e, acquireOp pool k ≠ .error (.permanent e)) ∧
    (∀ ie, get_pg_pool_connection pool = .err ie →
      ∀ i < defaultMaxAttempts, ∃ e, pool.get i = .error e) :=
  ⟨fun e he => (acquireOp_transient_iff pool k e).mpr he,
   fun e => acquireOp_ne_permanent pool k e,
   fun ie hie => (get_err_characterization pool ie hie).2⟩

/-- C9 witness: a concrete failed attempt is marked transient. -/
theorem c9_witness :
    acquireOp alwaysFailPool 0 = .error (.transient "connection refused") :=
  (c9_every_acquisition_error_transient alwaysFailPool 0).1 "connection refused" rfl

/-- C7: a bounded, well-formed policy gives up within finitely many
attempts, the fuelled retry loop never diverges from that bound on, the
cumulative waiting of any reached state stays within the budget plus one
(capped) interval, and `get_pg_pool_connection` — which runs the bounded
default policy — never diverges. -/
theorem c7_bounded_policy_terminates :
    (∀ (b : ExponentialBackoff) (t : Frac),
      b.max_elapsed_time = some t →
      1 ≤ b.multiplier.toRat →
      0 < b.current_interval.toRat →
      0 < b.max_interval.toRat →
      ∃ n, b.iter n = none ∧
        ∀ (E A : Type) (op : ℕ → Except (BackoffError E) A) (k fuel : ℕ),
          n ≤ fuel → retryAux op fuel b k ≠ .diverge) ∧
    (∀ (b b2 : ExponentialBackoff) (t : Frac) (m : ℕ),
      b.max_elapsed_time = some t →
      b.iter m = some b2 →
      b2.elapsed.toRat ≤
        max b.elapsed.toRat
          (t.toRat + max b.current_interval.toRat b.max_interval.toRat)) ∧
    (∀ pool, get_pg_pool_connection pool ≠ .diverge) := by
  refine ⟨?_, ?_, ?_⟩
  · intro b t hm hmul hc hM
    obtain ⟨n, hn⟩ := ExponentialBackoff.exists_iter_none b t hm hmul hc hM
    exact ⟨n, hn, fun E A op k fuel hf => retryAux_ne_diverge op fuel n b k hn hf⟩
  · intro b b2 t m hm hiter
    exact (ExponentialBackoff.iter_elapsed_le t _ m b b2 hm
      (le_max_left _ _) (le_max_right _ _) hiter).1
  · intro pool
    have hnd := retryAux_ne_diverge (acquireOp pool) retryFuel defaultMaxAttempts
      ExponentialBackoff.default 0
      (Option.isNone_iff_eq_none.mp default_iter_none) (by decide)
    unfold get_pg_pool_connection
    cases hr : retryAux (acquireOp pool) retryFuel ExponentialBackoff.default 0 with
    | ok c => simp
    | err e => simp
    | diverge => exact absurd hr hnd

/-- C7 witness: the default policy is bounded, so the loop it drives cannot
diverge once given at least its give-up bound as fuel. -/
theorem c7_witness :
    ∃ n, ExponentialBackoff.default.iter n = none ∧
      ∀ (E A : Type) (op : ℕ → Except (BackoffError E) A) (k fuel : ℕ),
        n ≤ fuel → retryAux op fuel ExponentialBackoff.default k ≠ .diverge :=
  c7_bounded_policy_terminates.1 ExponentialBackoff.default (Frac.ofNat 900000) rfl
    (by rw [default_multiplier_toRat]; norm_num)
    (by rw [show ExponentialBackoff.default.current_interval =
        ExponentialBackoff.default.initial_interval from rfl, default_initial_toRat]
        norm_num)
    (by rw [default_max_interval_toRat]; norm_num)

/-- C3: `build_json_rpc_server` performs builder construction, checkpoint
module registration, then bind/start, in that order; the first failing step
yields `Err (JsonRpcServerError _)` at once, with no retry and with no later
step performed; `Ok` is returned exactly when all three steps succeed. -/
theorem c3_build_json_rpc_server_sequencing (env : JsonRpcEnv) (reg : Registry)
    (pool : PgConnectionPool) :
    (∀ e, env.newOutcome = .error e →
      build_json_rpc_server env reg pool =
        (.error (.JsonRpcServerError (jsonRpcInitMsg ++ e)),
         [.newBuilder FAKE_PKG_VERSION])) ∧
    (∀ e, env.newOutcome = .ok () → env.registerOutcome = .error e →
      build_json_rpc_server env reg pool =
        (.error (.JsonRpcServerError (jsonRpcRegisterMsg ++ e)),
         [.newBuilder FAKE_PKG_VERSION,
          .registerModule (.checkpointApi (CheckpointApiImpl.new pool))])) ∧
    (∀ e, env.newOutcome = .ok () → env.registerOutcome = .ok () →
      env.startOutcome = .error e →
      build_json_rpc_server env reg pool =
        (.error (.JsonRpcServerError (jsonRpcStartMsg ++ e)),
         [.newBuilder FAKE_PKG_VERSION,
          .registerModule (.checkpointApi (CheckpointApiImpl.new pool)),
          .startServer default_socket_addr])) ∧
    (env.newOutcome = .ok () → env.registerOutcome = .ok () →
      env.startOutcome = .ok () →
      build_json_rpc_server env reg pool =
        (.ok { version := FAKE_PKG_VERSION,
               modules := [.checkpointApi (CheckpointApiImpl.new pool)],
               addr := default_socket_addr },
         [.newBuilder FAKE_PKG_VERSION,
          .registerModule (.checkpointApi (CheckpointApiImpl.new pool)),
          .startServer default_socket_addr])) ∧
    (∀ ie, (build_json_rpc_server env reg pool).1 = .error ie →
      ∃ s, ie = .JsonRpcServerError s) ∧
    (∀ h, (build_json_rpc_server env reg pool).1 = .ok h →
      env.newOutcome = .ok () ∧ env.registerOutcome = .ok () ∧
      env.startOutcome = .ok ()) := by
  refine ⟨?_, ?_, ?_, ?_, ?_, ?_⟩
  · intro e he
    simp [build_json_rpc_server, JsonRpcServerBuilder.new, he]
  · intro e hn hr
    simp [build_json_rpc_server, JsonRpcServerBuilder.new,
      JsonRpcServerBuilder.register_module, hn, hr]
  · intro e hn hr hs
    simp [build_json_rpc_server, JsonRpcServerBuilder.new,
      JsonRpcServerBuilder.register_module, JsonRpcServerBuilder.start, hn, hr, hs]
  · intro hn hr hs
    simp [build_json_rpc_server, JsonRpcServerBuilder.new,
      JsonRpcServerBuilder.register_module, JsonRpcServerBuilder.start, hn, hr, hs]
  · intro ie hie
    cases hn : env.newOutcome with
    | error e1 =>
      simp [build_json_rpc_server, JsonRpcServerBuilder.new, hn] at hie
      exact ⟨_, hie.symm⟩
    | ok u =>
      cases hr : env.registerOutcome with
      | error e2 =>
        simp [build_json_rpc_server, JsonRpcServerBuilder.new,
          JsonRpcServerBuilder.register_module, hn, hr] at hie
        exact ⟨_, hie.symm⟩
      | ok v =>
        cases hs : env.startOutcome with
        | error e3 =>
          simp [build_json_rpc_server, JsonRpcServerBuilder.new,
            JsonRpcServerBuilder.register_module, JsonRpcServerBuilder.start,
            hn, hr, hs] at hie
          exact ⟨_, hie.symm⟩
        | ok w =>
          simp [build_json_rpc_server, JsonRpcServerBuilder.new,
            JsonRpcServerBuilder.register_module, JsonRpcServerBuilder.start,
            hn, hr, hs] at hie
  · intro h hie
    cases hn : env.newOutcome with
    | error e1 =>
      simp [build_json_rpc_server, JsonRpcServerBuilder.new, hn] at hie
    | ok u =>
      cases hr : env.registerOutcome with
      | error e2 =>
        simp [build_json_rpc_server, JsonRpcServerBuilder.new,
          JsonRpcServerBuilder.register_module, hn, hr] at hie
      | ok v =>
        cases hs : env.startOutcome with
        | error e3 =>
          simp [build_json_rpc_server, JsonRpcServerBuilder.new,
            JsonRpcServerBuilder.register_module, JsonRpcServerBuilder.start,
            hn, hr, hs] at hie
        | ok w =>
          cases u
          cases v
          cases w
          exact ⟨rfl, rfl, rfl⟩

/-- C3 witness: with all three steps succeeding, the started server and the
full step trace are returned. -/
theorem c3_witness :
    build_json_rpc_server allOkEnv exampleRegistry okPool =
      (.ok { version := FAKE_PKG_VERSION,
             modules := [.checkpointApi (CheckpointApiImpl.new okPool)],
             addr := default_socket_addr },
       [.newBuilder FAKE_PKG_VERSION,
        .registerModule (.checkpointApi (CheckpointApiImpl.new okPool)),
        .startServer default_socket_addr]) :=
  (c3_build_json_rpc_server_sequencing allOkEnv exampleRegistry okPool).2.2.2.1
    rfl rfl rfl

/-- C8: the bind address passed to `start` is, in every invocation, the
hard-coded placeholder `127.0.0.1:3030`; a successfully started server
listens on it. -/
theorem c8_placeholder_bind_address (env : JsonRpcEnv) (reg : Registry)
    (pool : PgConnectionPool) :
    default_socket_addr = { ip := (127, 0, 0, 1), port := 3030 } ∧
    (∀ addr, BuildStep.startServer addr ∈ (build_json_rpc_server env reg pool).2 →
      addr = default_socket_addr) ∧
    (∀ h, (build_json_rpc_server env reg pool).1 = .ok h →
      h.addr = default_socket_addr ∧
      BuildStep.startServer default_socket_addr ∈
        (build_json_rpc_server env reg pool).2) := by
  refine ⟨rfl, ?_, ?_⟩
  · intro addr hmem
    cases hn : env.newOutcome with
    | error e1 =>
      simp [build_json_rpc_server, JsonRpcServerBuilder.new, hn] at hmem
    | ok u =>
      cases hr : env.registerOutcome with
      | error e2 =>
        simp [build_json_rpc_server, JsonRpcServerBuilder.new,
          JsonRpcServerBuilder.register_module, hn, hr] at hmem
      | ok v =>
        cases hs : env.startOutcome with
        | error e3 =>
          simp [build_json_rpc_server, JsonRpcServerBuilder.new,
            JsonRpcServerBuilder.register_module, JsonRpcServerBuilder.start,
            hn, hr, hs] at hmem
          exact hmem
        | ok w =>
          simp [build_json_rpc_server, JsonRpcServerBuilder.new,
            JsonRpcServerBuilder.register_module, JsonRpcServerBuilder.start,
            hn, hr, hs] at hmem
          exact hmem
  · intro h hok
    cases hn : env.newOutcome with
    | error e1 =>
      simp [build_json_rpc_server, JsonRpcServerBuilder.new, hn] at hok
    | ok u =>
      cases hr : env.registerOutcome with
      | error e2 =>
        simp [build_json_rpc_server, JsonRpcServerBuilder.new,
          JsonRpcServerBuilder.register_module, hn, hr] at hok
      | ok v =>
        cases hs : env.startOutcome with
        | error e3 =>
          simp [build_json_rpc_server, JsonRpcServerBuilder.new,
            JsonRpcServerBuilder.register_module, JsonRpcServerBuilder.start,
            hn, hr, hs] at hok
        | ok w =>
          simp [build_json_rpc_server, JsonRpcServerBuilder.new,
            JsonRpcServerBuilder.register_module, JsonRpcServerBuilder.start,
            hn, hr, hs] at hok ⊢
          rw [← hok]

/-- C8 witness: the all-success run listens on the placeholder address. -/
theorem c8_witness :
    ServerHandle.addr
        { version := FAKE_PKG_VERSION,
          modules := [.checkpointApi (CheckpointApiImpl.new okPool)],
          addr := default_socket_addr } = default_socket_addr ∧
      BuildStep.startServer default_socket_addr ∈
        (build_json_rpc_server allOkEnv exampleRegistry okPool).2 :=
  (c8_placeholder_bind_address allOkEnv exampleRegistry okPool).2.2
    { version := FAKE_PKG_VERSION,
      modules := [.checkpointApi (CheckpointApiImpl.new okPool)],
      addr := default_socket_addr } rfl

/-- C10 counterexample: when builder construction fails, the invocation
registers zero capability modules, refuting "registers exactly one …
never zero" for every invocation. -/
theorem c10_counterexample :
    List.countP BuildStep.isRegister
      (build_json_rpc_server newFailsEnv exampleRegistry okPool).2 = 0 := rfl

/-- C10 (amended): every invocation passes the fixed version tag `"0.0.0"`
(`FAKE_PKG_VERSION`) to builder construction; at most one module is ever
registered; any registered module is the checkpoint API holding the supplied
pool handle; exactly one is registered whenever builder construction
succeeds (in particular in every invocation that returns `Ok`), and a
returned server carries exactly that module and version. -/
theorem c10_version_and_single_checkpoint_module (env : JsonRpcEnv)
    (reg : Registry) (pool : PgConnectionPool) :
    FAKE_PKG_VERSION = "0.0.0" ∧
    (build_json_rpc_server env reg pool).2.head? =
      some (.newBuilder FAKE_PKG_VERSION) ∧
    List.countP BuildStep.isRegister (build_json_rpc_server env reg pool).2 ≤ 1 ∧
    (∀ m, BuildStep.registerModule m ∈ (build_json_rpc_server env reg pool).2 →
      m = .checkpointApi (CheckpointApiImpl.new pool)) ∧
    (env.newOutcome = .ok () →
      List.countP BuildStep.isRegister (build_json_rpc_server env reg pool).2 = 1) ∧
    (∀ h, (build_json_rpc_server env reg pool).1 = .ok h →
      h.version = FAKE_PKG_VERSION ∧
      h.modules = [.checkpointApi (CheckpointApiImpl.new pool)]) := by
  have hcases : ∀ P : Except IndexerError ServerHandle × List BuildStep → Prop,
      (∀ e1, env.newOutcome = .error e1 →
        P (.error (.JsonRpcServerError (jsonRpcInitMsg ++ e1)),
           [.newBuilder FAKE_PKG_VERSION])) →
      (∀ e2, env.newOutcome = .ok () → env.registerOutcome = .error e2 →
        P (.error (.JsonRpcServerError (jsonRpcRegisterMsg ++ e2)),
           [.newBuilder FAKE_PKG_VERSION,
            .registerModule (.checkpointApi (CheckpointApiImpl.new pool))])) →
      (∀ e3, env.newOutcome = .ok () → env.registerOutcome = .ok () →
        env.startOutcome = .error e3 →
        P (.error (.JsonRpcServerError (jsonRpcStartMsg ++ e3)),
           [.newBuilder FAKE_PKG_VERSION,
            .registerModule (.checkpointApi (CheckpointApiImpl.new pool)),
            .startServer default_socket_addr])) →
      (env.newOutcome = .ok () → env.registerOutcome = .ok () →
        env.startOutcome = .ok () →
        P (.ok { version := FAKE_PKG_VERSION,
                 modules := [.checkpointApi (CheckpointApiImpl.new pool)],
                 addr := default_socket_addr },
           [.newBuilder FAKE_PKG_VERSION,
            .registerModule (.checkpointApi (CheckpointApiImpl.new pool)),
            .startServer default_socket_addr])) →
      P (build_json_rpc_server env reg pool) := by
    intro P h1 h2 h3 h4
    cases hn : env.newOutcome with
    | error e1 =>
      simpa [build_json_rpc_server, JsonRpcServerBuilder.new, hn] using h1 e1 hn
    | ok u =>
      cases hr : env.registerOutcome with
      | error e2 =>
        simpa [build_json_rpc_server, JsonRpcServerBuilder.new,
          JsonRpcServerBuilder.register_module, hn, hr] using h2 e2 hn hr
      | ok v =>
        cases hs : env.startOutcome with
        | error e3 =>
          simpa [build_json_rpc_server, JsonRpcServerBuilder.new,
            JsonRpcServerBuilder.register_module, JsonRpcServerBuilder.start,
            hn, hr, hs] using h3 e3 hn hr hs
        | ok w =>
          simpa [build_json_rpc_server, JsonRpcServerBuilder.new,
            JsonRpcServerBuilder.register_module, JsonRpcServerBuilder.start,
            hn, hr, hs] using h4 hn hr hs
  refine ⟨rfl, ?_, ?_, ?_, ?_, ?_⟩
  · apply hcases (fun r => r.2.head? = some (.newBuilder FAKE_PKG_VERSION)) <;>
      intros <;> rfl
  · apply hcases (fun r => List.countP BuildStep.isRegister r.2 ≤ 1) <;>
      intros <;> simp [List.countP_cons, BuildStep.isRegister]
  · apply hcases (fun r => ∀ m, BuildStep.registerModule m ∈ r.2 →
      m = .checkpointApi (CheckpointApiImpl.new pool)) <;> intros <;> simp_all
  · intro hok
    apply hcases (fun r => List.countP BuildStep.isRegister r.2 = 1)
    · intro e1 he1; rw [hok] at he1; cases he1
    · intros; simp [List.countP_cons, BuildStep.isRegister]
    · intros; simp [List.countP_cons, BuildStep.isRegister]
    · intros; simp [List.countP_cons, BuildStep.isRegister]
  · apply hcases (fun r => ∀ h2, r.1 = .ok h2 →
      h2.version = FAKE_PKG_VERSION ∧
      h2.modules = [.checkpointApi (CheckpointApiImpl.new pool)])
    · intro e1 _ h2 hh; simp at hh
    · intro e2 _ _ h2 hh; simp at hh
    · intro e3 _ _ _ h2 hh; simp at hh
    · intro _ _ _ h2 hh
      have h3 := Except.ok.inj hh
      rw [← h3]
      exact ⟨rfl, rfl⟩

/-- C10 witness: with builder construction succeeding, exactly one module is
registered. -/
theorem c10_witness :
    List.countP BuildStep.isRegister
      (build_json_rpc_server allOkEnv exampleRegistry okPool).2 = 1 :=
  (c10_version_and_single_checkpoint_module allOkEnv exampleRegistry
    okPool).2.2.2.2.1 rfl

/-- C4: `new_pg_connection_pool` makes a single pool-construction attempt;
on success the pool's maximum size defaults to 10; on failure it returns
`PgConnectionPoolInitError` wrapping the cause, and no other variant. -/
theorem c4_new_pg_connection_pool_single_attempt (env : R2d2Env)
    (db_url : String) :
    (new_pg_connection_pool env db_url).2 = 1 ∧
    (∀ p, (new_pg_connection_pool env db_url).1 = .ok p → p.max_size = 10) ∧
    (∀ g, env.poolBuild db_url = .ok g →
      (new_pg_connection_pool env db_url).1 = .ok { max_size := 10, get := g }) ∧
    (∀ e, env.poolBuild db_url = .error e →
      (new_pg_connection_pool env db_url).1 =
        .error (.PgConnectionPoolInitError (poolInitMsg ++ e))) ∧
    (∀ ie, (new_pg_connection_pool env db_url).1 = .error ie →
      ∃ s, ie = .PgConnectionPoolInitError s) := by
  refine ⟨rfl, ?_, ?_, ?_, ?_⟩
  · intro p hp
    cases hb : env.poolBuild db_url with
    | ok g =>
      simp [new_pg_connection_pool, Pool.builder, PoolBuilder.build, hb] at hp
      rw [← hp]
    | error e =>
      simp [new_pg_connection_pool, Pool.builder, PoolBuilder.build, hb] at hp
  · intro g hb
    simp [new_pg_connection_pool, Pool.builder, PoolBuilder.build, hb]
  · intro e hb
    simp [new_pg_connection_pool, Pool.builder, PoolBuilder.build, hb]
  · intro ie hie
    cases hb : env.poolBuild db_url with
    | ok g =>
      simp [new_pg_connection_pool, Pool.builder, PoolBuilder.build, hb] at hie
    | error e =>
      simp [new_pg_connection_pool, Pool.builder, PoolBuilder.build, hb] at hie
      exact ⟨_, hie.symm⟩

/-- C4 witness: a successful build yields the default-sized pool. -/
theorem c4_witness :
    (new_pg_connection_pool okR2d2Env "postgres://indexer").1 =
      .ok { max_size := 10, get := fun k => .ok ⟨k⟩ } :=
  (c4_new_pg_connection_pool_single_attempt okR2d2Env "postgres://indexer").2.2.1
    (fun k => .ok ⟨k⟩) rfl

/-- C5: `new_rpc_client` makes exactly one construction attempt; success
returns the client, failure returns `RpcClientInitError` carrying the
underlying transport error description, and no other variant. -/
theorem c5_new_rpc_client_single_attempt (env : SuiClientBuilderEnv)
    (http_url : String) :
    (new_rpc_client env http_url).2 = 1 ∧
    (∀ c, env.build http_url = .ok c →
      (new_rpc_client env http_url).1 = .ok c) ∧
    (∀ e, env.build http_url = .error e →
      (new_rpc_client env http_url).1 =
        .error (.RpcClientInitError (rpcClientMsg ++ e))) ∧
    (∀ ie, (new_rpc_client env http_url).1 = .error ie →
      ∃ s, ie = .RpcClientInitError s) := by
  refine ⟨rfl, ?_, ?_, ?_⟩
  · intro c hb
    simp [new_rpc_client, hb]
  · intro e hb
    simp [new_rpc_client, hb]
  · intro ie hie
    cases hb : env.build http_url with
    | ok c => simp [new_rpc_client, hb] at hie
    | error e =>
      simp [new_rpc_client, hb] at hie
      exact ⟨_, hie.symm⟩

/-- C5 witness: a successful build returns the client unchanged. -/
theorem c5_witness :
    (new_rpc_client okSuiEnv "http://127.0.0.1:9000").1 = .ok ⟨3⟩ :=
  (c5_new_rpc_client_single_attempt okSuiEnv "http://127.0.0.1:9000").2.1 ⟨3⟩ rfl

/-- C6: `establish_connection` never returns an error value: it returns the
live connection exactly when establishing succeeds, and panics (with the
formatted message) exactly when it fails. -/
theorem c6_establish_connection_returns_or_panics (env : DieselEnv)
    (db_url : String) :
    (∀ c, env.establish db_url = .ok c →
      establish_connection env db_url = .ret c) ∧
    (∀ e, env.establish db_url = .error e →
      establish_connection env db_url =
        .panicked ("Error connecting to " ++ db_url)) ∧
    ((∃ c, establish_connection env db_url = .ret c) ↔
      ∃ c, env.establish db_url = .ok c) ∧
    (∀ r, establish_connection env db_url = r →
      (∃ c, r = .ret c) ∨ r = .panicked ("Error connecting to " ++ db_url)) := by
  refine ⟨?_, ?_, ?_, ?_⟩
  · intro c hc
    simp [establish_connection, hc]
  · intro e he
    simp [establish_connection, he]
  · cases he : env.establish db_url with
    | ok c => simp [establish_connection, he]
    | error e => simp [establish_connection, he]
  · intro r hr
    cases he : env.establish db_url with
    | ok c =>
      simp [establish_connection, he] at hr
      exact Or.inl ⟨c, hr.symm⟩
    | error e =>
      simp [establish_connection, he] at hr
      exact Or.inr hr.symm

/-- C6 witness: a reachable database yields the live connection. -/
theorem c6_witness :
    establish_connection okDieselEnv "postgres://localhost/indexer" = .ret ⟨1⟩ :=
  (c6_establish_connection_returns_or_panics okDieselEnv
    "postgres://localhost/indexer").1 ⟨1⟩ rfl

end SuiIndexer
